import Mathlib

/-!
Verification of the SentinelKarma agent core: a shallow embedding of
`agent/main.py` (ip_hash, EWMA, WindowStats, the run_agent trigger loop),
`tools/attack_classifier.py` (AttackClassifier.classify) and
`tools/saver.py` (RotatingWriter, cleanup_loop), with theorems settling
the specification claims.

Numeric conventions: Python floats are modelled as rationals (ℚ); the
z-score, whose source computes a square root, is modelled as a real
number.  Machine-level float rounding is not modelled.  String payload
formatting (f-strings inside alert messages and indicator lists) is
presentation-only and not modelled.  Rational constants are written with
`mkRat` (for instance 0.15 as `mkRat 15 100`), and the two comparisons
the source performs on derived quantities (the rotation bucket index and
the retention age test) are expressed on numerators and denominators,
so that every branch a concrete test exercises is kernel-computable;
`ratFloorDiv_eq_floor` and `ageExceeds_iff` prove these renderings equal
to the textbook forms.
-/

namespace SentinelKarma

/-! ## AttackClassifier (tools/attack_classifier.py) -/

/-- Result of `AttackClassifier.classify`.  The `indicators` list of
formatted strings is presentation-only and omitted from the model. -/
structure Classification where
  type : String
  severity : String
  confidence : ℚ
  recommended_action : String
deriving DecidableEq, Repr

/-- Input to `classify`, after the `dict.get` defaulting in lines 32-40:
`calls = metrics.get('calls', 0)`, `err_rate = metrics.get('err_rate', 0.0)`,
`p95 = metrics.get('p95', 0.0)`, `z_lat = z.get('lat', 0.0)`,
`z_err = z.get('err', 0.0)`, `method = log_data.get('method', '')`. -/
structure LogInput where
  calls : ℚ
  err_rate : ℚ
  p95 : ℚ
  z_lat : ℚ
  z_err : ℚ
  method : String
deriving DecidableEq, Repr

/-- The `heavy_methods` list of `AttackClassifier.classify`. -/
def heavy_methods : List String :=
  ["getProgramAccounts", "getLogs", "getSignaturesForAddress"]

/-- Check whether a character list begins with "auth". -/
def startsAuth : List Char → Bool
  | 'a' :: 'u' :: 't' :: 'h' :: _ => true
  | _ => false

/-- Check whether "auth" occurs anywhere in a character list. -/
def hasAuthSub : List Char → Bool
  | [] => false
  | c :: rest => startsAuth (c :: rest) || hasAuthSub rest

/-- Check `'auth' in method.lower()`: lowercase the method characterwise
and search for the substring "auth". -/
def authInMethod (method : String) : Bool :=
  hasAuthSub (method.data.map Char.toLower)

/-- AttackClassifier.classify, rules evaluated top to bottom, first match
wins (each source branch returns immediately). -/
def classify (d : LogInput) : Classification :=
  if d.calls > 1000 ∧ d.err_rate < mkRat 15 100 then
    { type := "ddos"
      severity := if d.calls > 5000 then "critical" else "high"
      confidence := mkRat 9 10
      recommended_action := "block_ips_immediately" }
  else if d.method ∈ heavy_methods ∧ (d.z_lat > 4 ∨ d.p95 > 500) then
    { type := "resource_exhaustion"
      severity := "high"
      confidence := mkRat 85 100
      recommended_action := "rate_limit_heavy_methods" }
  else if d.err_rate > mkRat 3 10 then
    { type := "scanning"
      severity := if d.err_rate < mkRat 1 2 then "medium" else "high"
      confidence := mkRat 8 10
      recommended_action := "block_ips_temporary" }
  else if authInMethod d.method ∧ d.err_rate > mkRat 1 2 then
    { type := "credential_stuffing"
      severity := "high"
      confidence := mkRat 75 100
      recommended_action := "block_ips_and_alert" }
  else if d.calls > 500 ∧ mkRat 5 100 < d.err_rate ∧ d.err_rate < mkRat 3 10 then
    { type := "rate_abuse"
      severity := "medium"
      confidence := mkRat 7 10
      recommended_action := "rate_limit" }
  else
    { type := "unknown"
      severity := "low"
      confidence := mkRat 1 2
      recommended_action := "monitor" }

/-! ## EWMA (agent/main.py lines 47-64) -/

/-- EWMA estimator state: `mu = None` until the first sample,
`var` starts at `1e-6`, `a` is the smoothing factor alpha. -/
structure EWMA where
  mu : Option ℚ
  var : ℚ
  a : ℚ
deriving DecidableEq, Repr

/-- EWMA.__init__(alpha): mu = None, var = 1e-6. -/
def EWMA.init (alpha : ℚ) : EWMA :=
  { mu := none, var := mkRat 1 1000000, a := alpha }

/-- EWMA.update: on the first sample only `mu` is set; afterwards
`d = x - mu; mu += a*d; var = (1-a)*(var + a*d*d)` with the pre-update mu. -/
def EWMA.update (e : EWMA) (x : ℚ) : EWMA :=
  match e.mu with
  | none => { e with mu := some x }
  | some mu =>
    let d := x - mu
    { mu := some (mu + e.a * d), var := (1 - e.a) * (e.var + e.a * d * d), a := e.a }

/-- EWMA.z: `0.0` while `mu` is None, otherwise `(x - mu) / sqrt(var + 1e-9)`.
The square root forces a real-valued model. -/
noncomputable def EWMA.z (e : EWMA) (x : ℚ) : ℝ :=
  match e.mu with
  | none => 0
  | some mu => ((x : ℝ) - (mu : ℝ)) / Real.sqrt ((e.var : ℝ) + 1/1000000000)

/-- n-fold EWMA.update with the same sample value, for constant-stream
properties. -/
def EWMA.iterUpdate (e : EWMA) (v : ℚ) : ℕ → EWMA
  | 0 => e
  | n + 1 => (e.iterUpdate v n).update v

/-! ## WindowStats (agent/main.py lines 67-90) -/

/-- Per-method window statistics.  The TDigest quantile sketch is an
external library; since `TDigest.update` feeds it one sample, the sketch
is modelled by the list of samples fed to it. -/
structure WindowStats where
  tdigest : List ℚ
  calls : ℕ
  errs : ℕ
  lat_ewma : EWMA
  err_ewma : EWMA
deriving DecidableEq, Repr

/-- WindowStats.__init__: empty sketch, zero counters,
EWMA(0.15) for latency and EWMA(0.10) for the error indicator. -/
def WindowStats.init : WindowStats :=
  { tdigest := [], calls := 0, errs := 0
    lat_ewma := EWMA.init (mkRat 15 100), err_ewma := EWMA.init (mkRat 1 10) }

/-- WindowStats.add(latency_ms, is_err): bump calls, feed the sketch and
the latency EWMA, and on error bump errs and feed 1.0 (else 0.0) to the
error EWMA. -/
def WindowStats.add (w : WindowStats) (latency_ms : ℚ) (is_err : Bool) : WindowStats :=
  { tdigest := w.tdigest ++ [latency_ms]
    calls := w.calls + 1
    errs := if is_err then w.errs + 1 else w.errs
    lat_ewma := w.lat_ewma.update latency_ms
    err_ewma := w.err_ewma.update (if is_err then 1 else 0) }

/-- WindowStats.snapshot, parametrised by the TDigest percentile query
`pct` (external approximate-quantile library): p95 is `pct` of the sketch
when there are samples, else 0; `err_rate = errs / max(1, calls)`;
the two z-scores probe p95 and err_rate. -/
noncomputable def WindowStats.snapshot (pct : List ℚ → ℚ) (w : WindowStats) :
    ℚ × ℚ × ℝ × ℝ :=
  let p95 := if w.calls ≠ 0 then pct w.tdigest else 0
  let err_rate := (w.errs : ℚ) / max 1 (w.calls : ℚ)
  (p95, err_rate, w.lat_ewma.z p95, w.err_ewma.z err_rate)

/-! ## Agent main loop (agent/main.py run_agent, lines 131-203) -/

/-- Configuration drawn from the environment at module load:
the heavy-method set and the four trigger thresholds plus the window
duration in milliseconds. -/
structure AgentCfg where
  methods_heavy : List String
  window_ms : ℚ
  zlat_thr : ℚ
  zerr_thr : ℚ
  p95_thr : ℚ
  err_thr : ℚ
deriving Repr

/-- Values of one flushed window snapshot `(p95, err_rate, z_lat, z_err)`
as consumed by the trigger decision. -/
structure Snapshot where
  p95 : ℚ
  err_rate : ℚ
  z_lat : ℚ
  z_err : ℚ
deriving DecidableEq, Repr

/-- Trigger decision of run_agent lines 183-186:
`z_lat >= ZLAT_THR or z_err >= ZERR_THR or p95 >= P95_THR or err_rate >= ERR_THR`. -/
def trigger (cfg : AgentCfg) (s : Snapshot) : Bool :=
  decide (s.z_lat ≥ cfg.zlat_thr) || decide (s.z_err ≥ cfg.zerr_thr) ||
  decide (s.p95 ≥ cfg.p95_thr) || decide (s.err_rate ≥ cfg.err_thr)

/-- Flush loop of run_agent lines 181-201: for each method's window
snapshot, publish an alert on `sentinel/diag` exactly when `trigger`
holds.  Alerts are identified by their method; the remaining payload
fields are formatting of the same snapshot. -/
def flushAlerts (cfg : AgentCfg) (ws : List (String × Snapshot)) : List String :=
  ws.filterMap (fun x => if trigger cfg x.2 then some x.1 else none)

/-- One parsed event, after the `dict.get` defaulting of lines 164-171:
`method` may be absent, `lat_ms` defaults to 0, `status` to 200. -/
structure Event where
  method : Option String
  lat_ms : ℚ
  status : ℤ
deriving Repr

/-- Mutable loop state of run_agent: the per-method window mapping
(insertion-ordered, as a Python dict) and the last flush time. -/
structure AgentState where
  windows : List (String × WindowStats)
  last_flush : ℚ
deriving DecidableEq, Repr

/-- Lookup-or-create plus `WindowStats.add` on the per-method dict
(lines 173-176); a new key is appended, as Python dict insertion order. -/
def addToWindow : List (String × WindowStats) → String → ℚ → Bool →
    List (String × WindowStats)
  | [], m, lat, is_err => [(m, WindowStats.init.add lat is_err)]
  | (k, w) :: rest, m, lat, is_err =>
    if k = m then (k, w.add lat is_err) :: rest
    else (k, w) :: addToWindow rest m lat is_err

/-- Check `method not in METHODS_HEAVY` of line 165 (a missing method is
never a member). -/
def heavyMethod (cfg : AgentCfg) : Option String → Bool
  | some m => decide (m ∈ cfg.methods_heavy)
  | none => false

/-- One iteration of the run_agent event loop body (lines 164-203) for a
parsed event, parametrised by the snapshot evaluation `snap` (whose
z-scores involve the real-valued square root and the external TDigest
percentile).  Returns the new state and the methods alerted:
skip non-heavy events; otherwise add to the method's window, then if
`(now - last_flush) * 1000 >= WINDOW_MS` flush every window through the
trigger decision and clear the mapping. -/
def step (cfg : AgentCfg) (snap : WindowStats → Snapshot) (st : AgentState)
    (ev : Event) (now : ℚ) : AgentState × List String :=
  match ev.method with
  | none => (st, [])
  | some m =>
    if m ∈ cfg.methods_heavy then
      let is_err : Bool := decide (ev.status ≥ 500)
      let windows' := addToWindow st.windows m ev.lat_ms is_err
      if (now - st.last_flush) * 1000 ≥ cfg.window_ms then
        ({ windows := [], last_flush := now },
         flushAlerts cfg (windows'.map (fun kw => (kw.1, snap kw.2))))
      else
        ({ windows := windows', last_flush := st.last_flush }, [])
    else (st, [])

/-! ## RotatingWriter (tools/saver.py lines 9-55) -/

/-- Zero-padded two-digit decimal, as Python format 02d (for the
non-negative field values produced by gmtime). -/
def pad2 (n : ℕ) : String :=
  if n < 10 then "0" ++ toString n else toString n

/-- Zero-padded four-digit decimal, as Python format 04d. -/
def pad4 (n : ℕ) : String :=
  if n < 10 then "000" ++ toString n
  else if n < 100 then "00" ++ toString n
  else if n < 1000 then "0" ++ toString n
  else toString n

/-- Proleptic-Gregorian civil date (year, month, day) from days since
1970-01-01, the civil-from-days algorithm with floor division. -/
def civilFromDays (z0 : ℤ) : ℤ × ℤ × ℤ :=
  let z := z0 + 719468
  let era := z.fdiv 146097
  let doe := z - era * 146097
  let yoe := (doe - doe.fdiv 1460 + doe.fdiv 36524 - doe.fdiv 146096).fdiv 365
  let y := yoe + era * 400
  let doy := doe - (365 * yoe + yoe.fdiv 4 - yoe.fdiv 100)
  let mp := (5 * doy + 2).fdiv 153
  let d := doy - (153 * mp + 2).fdiv 5 + 1
  let m := mp + (if mp < 10 then 3 else -9)
  (y + (if m ≤ 2 then 1 else 0), m, d)

/-- Broken-down UTC time (year, mon, mday, hour, min, sec), the model of
`time.gmtime`. -/
structure Tm where
  year : ℤ
  mon : ℤ
  mday : ℤ
  hour : ℤ
  minute : ℤ
  sec : ℤ
deriving DecidableEq, Repr

/-- time.gmtime(secs) for the fields the file namers read. -/
def gmtime (secs : ℤ) : Tm :=
  let days := secs.fdiv 86400
  let rem := secs - days * 86400
  let ymd := civilFromDays days
  { year := ymd.1, mon := ymd.2.1, mday := ymd.2.2
    hour := rem.fdiv 3600, minute := (rem.fdiv 60) % 60, sec := rem % 60 }

/-- Default bucket file name of `RotatingWriter._path_for` when no namer
is supplied: `log-YYYYMMDD-HHMM.jsonl` from gmtime(bin_start). -/
def defaultName (bin_start : ℤ) : String :=
  let t := gmtime bin_start
  "log-" ++ pad4 t.year.natAbs ++ pad2 t.mon.natAbs ++ pad2 t.mday.natAbs ++
  "-" ++ pad2 t.hour.natAbs ++ pad2 t.minute.natAbs ++ ".jsonl"

/-- RotatingWriter state: the clamped rotation period, the optional
caller-supplied namer, and the current bucket start (None before the
first write, when no file handle is open). -/
structure RotatingWriter where
  base_dir : String
  rotate_secs : ℤ
  namer : Option (ℤ → String)
  cur_bin : Option ℤ

/-- RotatingWriter.__init__: `rotate_secs = max(60, int(rotate_secs))`,
no bucket open yet. -/
def RotatingWriter.init (base_dir : String) (rotate_secs : ℤ)
    (namer : Option (ℤ → String)) : RotatingWriter :=
  { base_dir := base_dir, rotate_secs := max 60 rotate_secs
    namer := namer, cur_bin := none }

/-- RotatingWriter._path_for: namer(bin_start) under base_dir when a
namer was supplied, else the calendar-derived default name. -/
def RotatingWriter.path_for (w : RotatingWriter) (bin_start : ℤ) : String :=
  match w.namer with
  | some f => w.base_dir ++ "/" ++ f bin_start
  | none => w.base_dir ++ "/" ++ defaultName bin_start

/-- Python floor division `ts // r` of a rational timestamp by an
integer period, computed on the reduced fraction so that it is
kernel-computable; `ratFloorDiv_eq_floor` proves it equal to
`⌊ts / r⌋` for every positive period. -/
def ratFloorDiv (ts : ℚ) (r : ℤ) : ℤ :=
  ts.num.fdiv ((ts.den : ℤ) * r)

/-- File-system effects of one `write` call, in order. -/
inductive FileOp where
  | flushClose : String → FileOp
  | openApp : String → FileOp
  | append : String → String → FileOp
deriving DecidableEq, Repr

/-- RotatingWriter.write(obj, ts):
`bin_start = int(ts // rotate_secs * rotate_secs)`; if it differs from
the current bucket, flush-close the open handle (if any), then open the
new bucket's path in append mode; finally append the record to the open
file.  The returned list records the effects in program order. -/
def RotatingWriter.write (w : RotatingWriter) (obj : String) (ts : ℚ) :
    RotatingWriter × List FileOp :=
  let bin_start : ℤ := ratFloorDiv ts w.rotate_secs * w.rotate_secs
  if w.cur_bin = some bin_start then
    (w, [FileOp.append (w.path_for bin_start) obj])
  else
    let closeOps := match w.cur_bin with
      | some b => [FileOp.flushClose (w.path_for b)]
      | none => []
    let path := w.path_for bin_start
    ({ w with cur_bin := some bin_start },
     closeOps ++ [FileOp.openApp path, FileOp.append path obj])

/-- RotatingWriter.current_path: None before the first write, else the
path of the currently open bucket. -/
def RotatingWriter.current_path (w : RotatingWriter) : Option String :=
  match w.cur_bin with
  | some b => some (w.path_for b)
  | none => none

/-! ## RetentionSweeper (tools/saver.py cleanup_loop, lines 58-81) -/

/-- Directory entry as seen by one sweep pass: file name and
modification time. -/
structure FileEntry where
  name : String
  mtime : ℚ
deriving DecidableEq, Repr

/-- Check that a string ends with the given suffix, characterwise. -/
def endsWithStr (s suffix : String) : Bool :=
  decide (s.data.drop (s.data.length - suffix.data.length) = suffix.data)

/-- Managed extensions filter of line 66:
`name.endswith(".jsonl") or name.endswith(".log")`. -/
def managedExt (name : String) : Bool :=
  endsWithStr name ".jsonl" || endsWithStr name ".log"

/-- The age test `now - st.st_mtime > ttl_secs` of line 73, expressed on
numerators and denominators so that it is kernel-computable;
`ageExceeds_iff` proves it equal to the textbook form. -/
def ageExceeds (now mtime : ℚ) (ttl : ℤ) : Bool :=
  decide (ttl * ((now.den : ℤ) * (mtime.den : ℤ)) <
    now.num * (mtime.den : ℤ) - (now.den : ℤ) * mtime.num)

/-- Deletions of one pass of the cleanup_loop body (lines 64-78) over a
directory listing: skip unmanaged names, skip the path equal to the
writer's current_path (modelled by `current`, None when no writer was
supplied or nothing is open), delete when `now - mtime > ttl`. -/
def sweepPass (directory : String) (ttl_secs : ℤ) (now : ℚ)
    (files : List FileEntry) (current : Option String) : List String :=
  files.filterMap (fun f =>
    if managedExt f.name then
      let path := directory ++ "/" ++ f.name
      if current = some path then none
      else if ageExceeds now f.mtime ttl_secs then some path else none
    else none)

/-- Deletions cleanup_loop can ever perform for a directory: the guard of
lines 59-60 returns before any pass when `ttl_secs <= 0`. -/
def cleanupDeletes (directory : String) (ttl_secs : ℤ) (now : ℚ)
    (files : List FileEntry) (current : Option String) : List String :=
  if ttl_secs ≤ 0 then [] else sweepPass directory ttl_secs now files current

/-! ## ip_hash (agent/main.py lines 42-44)

`hashlib.blake2b((ip + "|" + salt).encode(), digest_size=6).hexdigest()`
behind the fixed tag `"iphash:"`.  BLAKE2b (RFC 7693) is embedded over ℕ
with explicit reduction mod 2^64. -/

/-- Word modulus of the 64-bit BLAKE2b arithmetic. -/
def M64 : ℕ := 2 ^ 64

/-- BLAKE2b initialisation vector. -/
def blakeIV : List ℕ :=
  [0x6a09e667f3bcc908, 0xbb67ae8584caa73b, 0x3c6ef372fe94f82b, 0xa54ff53a5f1d36f1,
   0x510e527fade682d1, 0x9b05688c2b3e6c1f, 0x1f83d9abfb41bd6b, 0x5be0cd19137e2179]

/-- BLAKE2 message schedule; round r of the 12 BLAKE2b rounds uses row
`r % 10`. -/
def blakeSigma : List (List ℕ) :=
  [[0, 1, 2, 3, 4, 5, 6, 7, 8, 9, 10, 11, 12, 13, 14, 15],
   [14, 10, 4, 8, 9, 15, 13, 6, 1, 12, 0, 2, 11, 7, 5, 3],
   [11, 8, 12, 0, 5, 2, 15, 13, 10, 14, 3, 6, 7, 1, 9, 4],
   [7, 9, 3, 1, 13, 12, 11, 14, 2, 6, 5, 10, 4, 0, 15, 8],
   [9, 0, 5, 7, 2, 4, 10, 15, 14, 1, 11, 12, 6, 8, 3, 13],
   [2, 12, 6, 10, 0, 11, 8, 3, 4, 13, 7, 5, 15, 14, 1, 9],
   [12, 5, 1, 15, 14, 13, 4, 10, 0, 7, 6, 3, 9, 2, 8, 11],
   [13, 11, 7, 14, 12, 1, 3, 9, 5, 0, 15, 4, 8, 6, 2, 10],
   [6, 15, 14, 9, 11, 3, 0, 8, 12, 2, 13, 7, 1, 4, 10, 5],
   [10, 2, 8, 4, 7, 6, 1, 5, 15, 11, 9, 14, 3, 12, 13, 0]]

/-- Rotate a 64-bit word right by n bits. -/
def rotr64 (x n : ℕ) : ℕ :=
  ((x >>> n) ||| (x <<< (64 - n))) % M64

/-- BLAKE2b quarter-round G on the 16-word working vector `v` at indices
a b c d with message words x y. -/
def blakeG (v : List ℕ) (a b c d x y : ℕ) : List ℕ :=
  let va := (v.getD a 0 + v.getD b 0 + x) % M64
  let vd := rotr64 (v.getD d 0 ^^^ va) 32
  let vc := (v.getD c 0 + vd) % M64
  let vb := rotr64 (v.getD b 0 ^^^ vc) 24
  let va' := (va + vb + y) % M64
  let vd' := rotr64 (vd ^^^ va') 16
  let vc' := (vc + vd') % M64
  let vb' := rotr64 (vb ^^^ vc') 63
  ((((v.set a va').set b vb').set c vc').set d vd')

/-- One BLAKE2b round: eight G applications under the schedule row s. -/
def blakeRound (m : List ℕ) (v : List ℕ) (s : List ℕ) : List ℕ :=
  let mi := fun i => m.getD (s.getD i 0) 0
  let v := blakeG v 0 4 8 12 (mi 0) (mi 1)
  let v := blakeG v 1 5 9 13 (mi 2) (mi 3)
  let v := blakeG v 2 6 10 14 (mi 4) (mi 5)
  let v := blakeG v 3 7 11 15 (mi 6) (mi 7)
  let v := blakeG v 0 5 10 15 (mi 8) (mi 9)
  let v := blakeG v 1 6 11 12 (mi 10) (mi 11)
  let v := blakeG v 2 7 8 13 (mi 12) (mi 13)
  let v := blakeG v 3 4 9 14 (mi 14) (mi 15)
  v

/-- BLAKE2b compression function F(h, m, t, final). -/
def blakeCompress (h : List ℕ) (m : List ℕ) (t : ℕ) (final : Bool) : List ℕ :=
  let v := h ++ blakeIV
  let v := v.set 12 (v.getD 12 0 ^^^ (t % M64))
  let v := v.set 13 (v.getD 13 0 ^^^ (t / M64 % M64))
  let v := if final then v.set 14 (v.getD 14 0 ^^^ (M64 - 1)) else v
  let v := (List.range 12).foldl
    (fun v r => blakeRound m v (blakeSigma.getD (r % 10) [])) v
  (List.range 8).map (fun i => h.getD i 0 ^^^ v.getD i 0 ^^^ v.getD (i + 8) 0)

/-- Little-endian 64-bit word from up to eight bytes (missing bytes read
as the zero padding of the final block). -/
def leWord (bytes : List ℕ) : ℕ :=
  bytes.foldr (fun b acc => b + 256 * acc) 0

/-- Sixteen little-endian message words of one 128-byte block. -/
def wordsOfBlock (block : List ℕ) : List ℕ :=
  (List.range 16).map (fun j => leWord ((block.drop (8 * j)).take 8))

/-- Split a byte string into 128-byte blocks (the last possibly short,
padded implicitly by `leWord`). -/
def chunks128 : List ℕ → List (List ℕ)
  | [] => []
  | b :: bs => (b :: bs).take 128 :: chunks128 ((b :: bs).drop 128)
termination_by l => l.length
decreasing_by simp [List.length_drop]; omega

/-- Little-endian byte expansion of one 64-bit word. -/
def le8 (w : ℕ) : List ℕ :=
  [w % 256, w / 2 ^ 8 % 256, w / 2 ^ 16 % 256, w / 2 ^ 24 % 256,
   w / 2 ^ 32 % 256, w / 2 ^ 40 % 256, w / 2 ^ 48 % 256, w / 2 ^ 56 % 256]

/-- One step of the sequential BLAKE2b hashing loop: compress block i
with the running byte offset, or with the total length and the final
flag when it is the last block. -/
def blakeStep (data : List ℕ) (blocks : List (List ℕ)) (h : List ℕ) (i : ℕ) : List ℕ :=
  let m := wordsOfBlock (blocks.getD i [])
  if i + 1 = blocks.length then blakeCompress h m data.length true
  else blakeCompress h m ((i + 1) * 128) false

/-- Unkeyed BLAKE2b digest of `data` with digest length nn bytes:
parameter-block xor on IV word 0, sequential compression with byte
offsets, final flag on the last block, output truncated to nn bytes. -/
def blake2b (data : List ℕ) (nn : ℕ) : List ℕ :=
  let h0 := blakeIV.set 0 (blakeIV.getD 0 0 ^^^ 0x01010000 ^^^ nn)
  let blocks := if data.isEmpty then [[]] else chunks128 data
  let h := (List.range blocks.length).foldl (blakeStep data blocks) h0
  ((h.map le8).flatten).take nn

/-- Lowercase hexadecimal digit characters. -/
def hexDigits : List Char :=
  "0123456789abcdef".data

/-- Two lowercase hex characters per byte, as `hexdigest()`. -/
def toHexChars : List ℕ → List Char
  | [] => []
  | b :: bs => hexDigits.getD (b / 16) '0' :: hexDigits.getD (b % 16) '0' :: toHexChars bs

/-- String of the hex characters of a byte string. -/
def hexString (bytes : List ℕ) : String :=
  String.mk (toHexChars bytes)

/-- UTF-8 bytes of a string, as `str.encode()`. -/
def strBytes (s : String) : List ℕ :=
  s.toUTF8.toList.map (fun b => b.toNat)

/-- ip_hash(ip, salt):
`"iphash:" + blake2b((ip + "|" + salt).encode(), digest_size=6).hexdigest()`. -/
def ip_hash (ip salt : String) : String :=
  "iphash:" ++ hexString (blake2b (strBytes (ip ++ "|" ++ salt)) 6)

/-! ## Theorems -/

/-- C2 counterexample: on the spec's first classifier vector
(volume 5000, error_rate 0.05, other fields defaulted) the code's
severity is not `critical`: the ddos rule grades `critical` only for
`requests > 5000`, and 5000 is not greater than 5000. -/
theorem classify_vector1_not_critical :
    (classify ⟨5000, mkRat 5 100, 0, 0, 0, ""⟩).severity ≠ "critical" := by
  decide

/-- C2 (amended): the three spec vectors evaluate as the code does:
{volume 5000, error_rate 0.05} → ddos / high / 0.90 (severity high, not
critical, since 5000 is not strictly greater than 5000);
{error_rate 0.60} → scanning / high / 0.80;
{volume 50, error_rate 0.01} → unknown / low / 0.50. -/
theorem classify_spec_vectors :
    (classify ⟨5000, mkRat 5 100, 0, 0, 0, ""⟩).type = "ddos" ∧
    (classify ⟨5000, mkRat 5 100, 0, 0, 0, ""⟩).severity = "high" ∧
    (classify ⟨5000, mkRat 5 100, 0, 0, 0, ""⟩).confidence = mkRat 9 10 ∧
    (classify ⟨0, mkRat 60 100, 0, 0, 0, ""⟩).type = "scanning" ∧
    (classify ⟨0, mkRat 60 100, 0, 0, 0, ""⟩).severity = "high" ∧
    (classify ⟨0, mkRat 60 100, 0, 0, 0, ""⟩).confidence = mkRat 8 10 ∧
    (classify ⟨50, mkRat 1 100, 0, 0, 0, ""⟩).type = "unknown" ∧
    (classify ⟨50, mkRat 1 100, 0, 0, 0, ""⟩).severity = "low" ∧
    (classify ⟨50, mkRat 1 100, 0, 0, 0, ""⟩).confidence = mkRat 1 2 := by
  decide

/-- C3 counterexample: for an input whose first matching rule is the ddos
rule (volume 2000, error_rate 0.05), the recommended action is not the
spec's `block_immediately` (the code returns `block_ips_immediately`). -/
theorem classify_action_name_cex :
    (classify ⟨2000, mkRat 5 100, 0, 0, 0, ""⟩).recommended_action ≠ "block_immediately" := by
  decide

/-- C3 (amended): when the first matching rule is rule 1
(volume > 1000 and error_rate < 0.15) the recommended action is
`block_ips_immediately`, and when the first matching rule is rule 3
(rules 1 and 2 fail, error_rate > 0.30) it is `block_ips_temporary`. -/
theorem classify_actions (d : LogInput) :
    (d.calls > 1000 → d.err_rate < mkRat 15 100 →
      (classify d).recommended_action = "block_ips_immediately") ∧
    (¬(d.calls > 1000 ∧ d.err_rate < mkRat 15 100) →
      ¬(d.method ∈ heavy_methods ∧ (d.z_lat > 4 ∨ d.p95 > 500)) →
      d.err_rate > mkRat 3 10 →
      (classify d).recommended_action = "block_ips_temporary") := by
  constructor
  · intro h1 h2
    unfold classify
    rw [if_pos ⟨h1, h2⟩]
  · intro hn1 hn2 h3
    unfold classify
    rw [if_neg hn1, if_neg hn2, if_pos h3]

/-- Witness for `classify_actions`: a rule-1 input (volume 2000,
error_rate 0.10) and a rule-3 input (error_rate 0.40, nothing else set). -/
theorem classify_actions_witness :
    (classify ⟨2000, mkRat 1 10, 0, 0, 0, ""⟩).recommended_action = "block_ips_immediately" ∧
    (classify ⟨0, mkRat 2 5, 0, 0, 0, ""⟩).recommended_action = "block_ips_temporary" :=
  ⟨(classify_actions ⟨2000, mkRat 1 10, 0, 0, 0, ""⟩).1 (by decide) (by decide),
   (classify_actions ⟨0, mkRat 2 5, 0, 0, 0, ""⟩).2 (by decide) (by decide) (by decide)⟩

/-- C9: classify never returns type `credential_stuffing`: its guard
needs error_rate > 0.5, but any such input already satisfied the earlier
scanning guard error_rate > 0.3. -/
theorem classify_never_credential_stuffing (d : LogInput) :
    (classify d).type ≠ "credential_stuffing" := by
  unfold classify
  split_ifs <;> try decide
  next h1 h2 h3 h4 =>
    exact absurd (lt_trans (by decide : mkRat 3 10 < mkRat 1 2) h4.2) h3

/-- Witness for `classify_never_credential_stuffing`: an auth-heavy
failure pattern (method "authenticate", error_rate 0.60) is still not
classified as credential stuffing. -/
theorem classify_never_credential_stuffing_witness :
    (classify ⟨0, mkRat 3 5, 0, 0, 0, "authenticate"⟩).type ≠ "credential_stuffing" :=
  classify_never_credential_stuffing ⟨0, mkRat 3 5, 0, 0, 0, "authenticate"⟩

/-- C1: an alert is published for a method at a flush exactly when its
snapshot satisfies the four-way disjunction
`z_lat ≥ ZLAT_THR ∨ z_err ≥ ZERR_THR ∨ p95 ≥ P95_THR ∨ err_rate ≥ ERR_THR`;
in particular, with the default thresholds, a window whose p95 and
z-scores are below threshold but whose error rate is at the 0.05
threshold still triggers. -/
theorem trigger_or_logic :
    (∀ (cfg : AgentCfg) (ws : List (String × Snapshot)) (m : String),
      m ∈ flushAlerts cfg ws ↔
        ∃ s : Snapshot, (m, s) ∈ ws ∧
          (s.z_lat ≥ cfg.zlat_thr ∨ s.z_err ≥ cfg.zerr_thr ∨
           s.p95 ≥ cfg.p95_thr ∨ s.err_rate ≥ cfg.err_thr)) ∧
    "getLogs" ∈ flushAlerts ⟨["getProgramAccounts", "getLogs"], 250, 3, 3, 250, mkRat 1 20⟩
      [("getLogs", ⟨0, mkRat 1 20, 0, 0⟩)] := by
  constructor
  · intro cfg ws m
    constructor
    · intro hm
      rcases List.mem_filterMap.mp hm with ⟨x, hx, hfx⟩
      by_cases ht : trigger cfg x.2 = true
      · rw [if_pos ht] at hfx
        obtain rfl : x.1 = m := Option.some.inj hfx
        refine ⟨x.2, by simpa using hx, ?_⟩
        simp only [trigger, Bool.or_eq_true, decide_eq_true_eq] at ht
        tauto
      · rw [if_neg ht] at hfx
        cases hfx
    · rintro ⟨s, hmem, hdisj⟩
      refine List.mem_filterMap.mpr ⟨(m, s), hmem, ?_⟩
      have ht : trigger cfg s = true := by
        simp only [trigger, Bool.or_eq_true, decide_eq_true_eq]
        tauto
      simp [ht]
  · decide

/-- EWMA state after feeding the same value n ≥ 1 times from a fresh
estimator: the mean is exactly that value and the variance is the
initial epsilon scaled by (1-alpha)^(n-1). -/
theorem ewma_iter_const (a v : ℚ) :
    ∀ n, 1 ≤ n → (EWMA.init a).iterUpdate v n =
      ⟨some v, (1 - a) ^ (n - 1) * mkRat 1 1000000, a⟩ := by
  intro n
  induction n with
  | zero => intro h; exact absurd h (by decide)
  | succ k ih =>
    intro _
    rcases Nat.eq_zero_or_pos k with rfl | hk
    · show (EWMA.init a).update v = _
      simp [EWMA.init, EWMA.update]
    · obtain ⟨j, rfl⟩ : ∃ j, k = j + 1 := ⟨k - 1, by omega⟩
      show ((EWMA.init a).iterUpdate v (j + 1)).update v = _
      rw [ih (by omega)]
      simp [EWMA.update, EWMA.mk.injEq]
      ring

/-- Variance of the constant-stream estimator, valid for every n. -/
theorem ewma_iter_var (a v : ℚ) (n : ℕ) :
    ((EWMA.init a).iterUpdate v n).var = (1 - a) ^ (n - 1) * mkRat 1 1000000 := by
  rcases Nat.eq_zero_or_pos n with rfl | hn
  · simp [EWMA.iterUpdate, EWMA.init]
  · rw [ewma_iter_const a v n hn]

/-- C4: the EWMA estimator: z is 0 before any update; the first update
sets the mean to the sample exactly; a subsequent update maps (mean,var)
to (mean + alpha(x-mean), (1-alpha)(var + alpha(x-mean)^2)) with the
pre-update mean; and on a constant stream of N ≥ 1 samples of value v
the mean stays exactly v, the variance strictly decreases and tends to
0, and z(v) = 0. -/
theorem ewma_estimator_spec (a v x m0 v0 : ℚ) (N : ℕ)
    (ha0 : 0 < a) (ha1 : a < 1) (hN : 1 ≤ N) :
    (EWMA.init a).z x = 0 ∧
    ((EWMA.init a).update v).mu = some v ∧
    EWMA.update ⟨some m0, v0, a⟩ x =
      ⟨some (m0 + a * (x - m0)), (1 - a) * (v0 + a * (x - m0) ^ 2), a⟩ ∧
    ((EWMA.init a).iterUpdate v N).mu = some v ∧
    ((EWMA.init a).iterUpdate v (N + 1)).var < ((EWMA.init a).iterUpdate v N).var ∧
    Filter.Tendsto (fun n => (((EWMA.init a).iterUpdate v n).var : ℝ))
      Filter.atTop (nhds 0) ∧
    ((EWMA.init a).iterUpdate v N).z v = 0 := by
  have hb : (0:ℚ) < 1 - a := by linarith
  have hε : (0:ℚ) < mkRat 1 1000000 := by decide
  refine ⟨rfl, rfl, ?_, ?_, ?_, ?_, ?_⟩
  · have h2 : (1 - a) * (v0 + a * (x - m0) * (x - m0)) =
        (1 - a) * (v0 + a * (x - m0) ^ 2) := by ring
    simp only [EWMA.update, h2]
  · rw [ewma_iter_const a v N hN]
  · rw [ewma_iter_const a v (N + 1) (by omega), ewma_iter_const a v N hN]
    simp only [Nat.add_sub_cancel]
    obtain ⟨j, rfl⟩ : ∃ j, N = j + 1 := ⟨N - 1, by omega⟩
    simp only [Nat.add_sub_cancel]
    rw [pow_succ]
    have hp : (0:ℚ) < (1 - a) ^ j := pow_pos hb j
    nlinarith [mul_pos (mul_pos hp hε) ha0]
  · have hcast : ∀ n : ℕ, (((EWMA.init a).iterUpdate v n).var : ℝ) =
        (1 - (a:ℝ)) ^ (n - 1) * ((mkRat 1 1000000 : ℚ) : ℝ) := by
      intro n
      rw [ewma_iter_var]
      push_cast
      ring
    have h0 : (0:ℝ) ≤ 1 - (a:ℝ) := by
      have : (a:ℝ) < 1 := by exact_mod_cast ha1
      linarith
    have h1 : 1 - (a:ℝ) < 1 := by
      have : (0:ℝ) < (a:ℝ) := by exact_mod_cast ha0
      linarith
    have hpow := tendsto_pow_atTop_nhds_zero_of_lt_one h0 h1
    have hcomp := hpow.comp (Filter.tendsto_sub_atTop_nat 1)
    have hmul := hcomp.mul_const (((mkRat 1 1000000 : ℚ) : ℝ))
    rw [zero_mul] at hmul
    exact Filter.Tendsto.congr (fun n => (hcast n).symm) hmul
  · rw [ewma_iter_const a v N hN]
    simp [EWMA.z]

/-- Witness for `ewma_estimator_spec` at alpha = 0.2, constant value 7,
probe 3, a generic prior state (mean 2, variance 5), and N = 3. -/
theorem ewma_estimator_spec_witness :
    (0 : ℚ) < mkRat 1 5 ∧ mkRat 1 5 < 1 ∧ (1 ≤ 3) ∧
    ((EWMA.init (mkRat 1 5)).z 3 = 0 ∧
     ((EWMA.init (mkRat 1 5)).update 7).mu = some 7 ∧
     EWMA.update ⟨some 2, 5, mkRat 1 5⟩ 3 =
       ⟨some (2 + mkRat 1 5 * (3 - 2)), (1 - mkRat 1 5) * (5 + mkRat 1 5 * (3 - 2) ^ 2),
        mkRat 1 5⟩ ∧
     ((EWMA.init (mkRat 1 5)).iterUpdate 7 3).mu = some 7 ∧
     ((EWMA.init (mkRat 1 5)).iterUpdate 7 (3 + 1)).var <
       ((EWMA.init (mkRat 1 5)).iterUpdate 7 3).var ∧
     Filter.Tendsto (fun n => (((EWMA.init (mkRat 1 5)).iterUpdate 7 n).var : ℝ))
       Filter.atTop (nhds 0) ∧
     ((EWMA.init (mkRat 1 5)).iterUpdate 7 3).z 7 = 0) :=
  ⟨by decide, by decide, by decide,
   ewma_estimator_spec (mkRat 1 5) 7 3 2 5 3 (by decide) (by decide) (by decide)⟩

/-- C5: WindowStats: a fresh window has zero counters; add preserves
sample_count ≥ error_count while extending the quantile sketch by
exactly the one sample and updating each EWMA exactly once; and after
the events (100, ok) and (200, error) the counters are 2 and 1 and the
snapshot error rate is 1/2. -/
theorem window_stats_spec (w : WindowStats) (l : ℚ) (e : Bool) (pct : List ℚ → ℚ)
    (hinv : w.errs ≤ w.calls) :
    WindowStats.init.calls = 0 ∧ WindowStats.init.errs = 0 ∧
    (w.add l e).errs ≤ (w.add l e).calls ∧
    (w.add l e).tdigest = w.tdigest ++ [l] ∧
    (w.add l e).lat_ewma = w.lat_ewma.update l ∧
    (w.add l e).err_ewma = w.err_ewma.update (if e then 1 else 0) ∧
    ((WindowStats.init.add 100 false).add 200 true).calls = 2 ∧
    ((WindowStats.init.add 100 false).add 200 true).errs = 1 ∧
    (((WindowStats.init.add 100 false).add 200 true).snapshot pct).2.1 = mkRat 1 2 := by
  refine ⟨rfl, rfl, ?_, rfl, rfl, rfl, rfl, rfl, ?_⟩
  · cases e <;> simp [WindowStats.add] <;> omega
  · show ((1 : ℚ) / max 1 (2 : ℚ)) = mkRat 1 2
    rw [Rat.mkRat_eq_div]
    norm_num

/-- Witness for `window_stats_spec`: the fresh window satisfies the
invariant, and one benign add preserves it. -/
theorem window_stats_spec_witness :
    WindowStats.init.errs ≤ WindowStats.init.calls ∧
    (WindowStats.init.calls = 0 ∧ WindowStats.init.errs = 0 ∧
     (WindowStats.init.add 3 false).errs ≤ (WindowStats.init.add 3 false).calls ∧
     (WindowStats.init.add 3 false).tdigest = WindowStats.init.tdigest ++ [3] ∧
     (WindowStats.init.add 3 false).lat_ewma = WindowStats.init.lat_ewma.update 3 ∧
     (WindowStats.init.add 3 false).err_ewma =
       WindowStats.init.err_ewma.update (if false then 1 else 0) ∧
     ((WindowStats.init.add 100 false).add 200 true).calls = 2 ∧
     ((WindowStats.init.add 100 false).add 200 true).errs = 1 ∧
     (((WindowStats.init.add 100 false).add 200 true).snapshot (fun _ => 0)).2.1 =
       mkRat 1 2) :=
  ⟨by decide, window_stats_spec WindowStats.init 3 false (fun _ => 0) (by decide)⟩

/-- Rendering lemma: the reduced-fraction floor division used by the
writer equals the mathematical bucket formula floor(ts / r) for every
positive period r. -/
theorem ratFloorDiv_eq_floor (ts : ℚ) (r : ℤ) (hr : 0 < r) :
    ratFloorDiv ts r = ⌊ts / (r : ℚ)⌋ := by
  unfold ratFloorDiv
  have hdpos : (0:ℤ) < (ts.den : ℤ) := by exact_mod_cast ts.den_pos
  set b : ℤ := (ts.den : ℤ) * r with hbdef
  have hbpos : (0:ℤ) < b := mul_pos hdpos hr
  have hbQ : (0:ℚ) < (b:ℚ) := by exact_mod_cast hbpos
  have hfd := Int.fdiv_add_fmod ts.num b
  have h0 := Int.fmod_nonneg' ts.num hbpos
  have h1 := Int.fmod_lt_of_pos ts.num hbpos
  have hts : ts / (r:ℚ) = (ts.num : ℚ) / (b:ℚ) := by
    conv_lhs => rw [← Rat.num_div_den ts]
    rw [div_div, hbdef]
    push_cast
    rfl
  rw [hts]
  symm
  rw [Int.floor_eq_iff]
  constructor
  · rw [le_div_iff₀ hbQ]
    exact_mod_cast (by linarith : (ts.num.fdiv b) * b ≤ ts.num)
  · rw [div_lt_iff₀ hbQ]
    exact_mod_cast (by linarith : ts.num < (ts.num.fdiv b + 1) * b)

/-- Rendering lemma: the numerator-level age check of the sweeper equals
`now - mtime > ttl`. -/
theorem ageExceeds_iff (now mtime : ℚ) (ttl : ℤ) :
    ageExceeds now mtime ttl = true ↔ now - mtime > (ttl : ℚ) := by
  unfold ageExceeds
  rw [decide_eq_true_iff]
  have hdn : (0:ℚ) < (now.den : ℚ) := by exact_mod_cast now.den_pos
  have hdm : (0:ℚ) < (mtime.den : ℚ) := by exact_mod_cast mtime.den_pos
  have key : ((ttl:ℚ) < now - mtime) ↔
      (ttl:ℚ) * ((now.den:ℚ) * (mtime.den:ℚ)) <
        (now.num:ℚ) * (mtime.den:ℚ) - (now.den:ℚ) * (mtime.num:ℚ) := by
    conv_lhs => rw [← Rat.num_div_den now, ← Rat.num_div_den mtime]
    rw [div_sub_div _ _ (ne_of_gt hdn) (ne_of_gt hdm), lt_div_iff₀ (mul_pos hdn hdm)]
  rw [gt_iff_lt, key]
  constructor <;> intro h <;> exact_mod_cast h

/-- C7: one retention sweep pass never deletes the writer's current
path; it deletes every managed entry that is not the current path and
whose age exceeds the ttl; cleanup_loop with ttl ≤ 0 deletes nothing at
all; and the embedded age check means exactly `now - mtime > ttl`. -/
theorem retention_sweep_spec (dir : String) (ttl : ℤ) (now : ℚ)
    (files : List FileEntry) (cur : Option String) (f : FileEntry)
    (hf : f ∈ files) (hm : managedExt f.name = true)
    (hne : cur ≠ some (dir ++ "/" ++ f.name))
    (hold : ageExceeds now f.mtime ttl = true) :
    (∀ p, cur = some p → p ∉ sweepPass dir ttl now files cur) ∧
    (dir ++ "/" ++ f.name) ∈ sweepPass dir ttl now files cur ∧
    (∀ ttl' : ℤ, ttl' ≤ 0 →
      ∀ (now' : ℚ) (files' : List FileEntry) (cur' : Option String),
        cleanupDeletes dir ttl' now' files' cur' = []) ∧
    (ageExceeds now f.mtime ttl = true ↔ now - f.mtime > (ttl : ℚ)) := by
  refine ⟨?_, ?_, ?_, ageExceeds_iff now f.mtime ttl⟩
  · intro p hp hmem
    rcases List.mem_filterMap.mp hmem with ⟨g, _, hgeq⟩
    simp only [] at hgeq
    split_ifs at hgeq with h1 h2 h3
    all_goals first
      | exact Option.noConfusion hgeq
      | · obtain rfl : dir ++ "/" ++ g.name = p := Option.some.inj hgeq
          exact h2 hp
  · refine List.mem_filterMap.mpr ⟨f, hf, ?_⟩
    simp [hm, hne, hold]
  · intro ttl' h now' files' cur'
    simp [cleanupDeletes, h]

/-- Witness for `retention_sweep_spec`: directory "/d" with an expired
log file and the writer's current file; ttl 10 seconds, now 100. -/
theorem retention_sweep_spec_witness :
    (∀ p, (some "/d/b.jsonl" : Option String) = some p →
      p ∉ sweepPass "/d" 10 100 [⟨"a.log", 0⟩, ⟨"b.jsonl", 95⟩] (some "/d/b.jsonl")) ∧
    ("/d" ++ "/" ++ "a.log") ∈
      sweepPass "/d" 10 100 [⟨"a.log", 0⟩, ⟨"b.jsonl", 95⟩] (some "/d/b.jsonl") ∧
    (∀ ttl' : ℤ, ttl' ≤ 0 →
      ∀ (now' : ℚ) (files' : List FileEntry) (cur' : Option String),
        cleanupDeletes "/d" ttl' now' files' cur' = []) ∧
    (ageExceeds 100 0 10 = true ↔ (100:ℚ) - 0 > ((10:ℤ) : ℚ)) :=
  retention_sweep_spec "/d" 10 100 [⟨"a.log", 0⟩, ⟨"b.jsonl", 95⟩]
    (some "/d/b.jsonl") ⟨"a.log", 0⟩ (by decide) (by decide) (by decide) (by decide)

/-- C6 counterexample: the constructor clamps the rotation period to at
least 60 seconds, so for rotation_period 30 and a namer keyed by
bucket_start, a write at t = 30 goes to the bucket-0 file "d/0" and not
to the file of the claimed bucket floor(30/30)*30 = 30, "d/30". -/
theorem rotating_writer_period_cex :
    ((RotatingWriter.init "d" 30 (some (fun b => toString b))).write "r" 30).2 =
      [FileOp.openApp "d/0", FileOp.append "d/0" "r"] ∧
    ((RotatingWriter.init "d" 30 (some (fun b => toString b))).write "r" 30).1.cur_bin =
      some 0 ∧
    FileOp.append "d/30" "r" ∉
      ((RotatingWriter.init "d" 30 (some (fun b => toString b))).write "r" 30).2 ∧
    ⌊(30:ℚ) / ((30:ℤ):ℚ)⌋ * (30:ℤ) = 30 := by
  refine ⟨by decide, by decide, by decide, ?_⟩
  norm_num

/-- C6 (amended): with the effective rotation period
`rotate_secs = max(60, rotation_period)` fixed by the constructor, every
write appends to the file of the bucket `floor(ts / rotate_secs) *
rotate_secs` (the reduced-fraction rendering `ratFloorDiv` equals that
formula for positive periods), records the new bucket, and on a bucket
change flush-closes the previous file before opening the new one; with
rotation_period 60, writes at t = 0, 30, 59 land in one file and a write
at t = 61 closes it and opens a distinct path. -/
theorem rotating_writer_spec (bd : String) (r : ℤ) (nm : Option (ℤ → String))
    (w : RotatingWriter) (obj : String) (ts : ℚ) :
    (RotatingWriter.init bd r nm).rotate_secs = max 60 r ∧
    (0 < w.rotate_secs →
      ratFloorDiv ts w.rotate_secs * w.rotate_secs =
        ⌊ts / (w.rotate_secs : ℚ)⌋ * w.rotate_secs) ∧
    FileOp.append (w.path_for (ratFloorDiv ts w.rotate_secs * w.rotate_secs)) obj ∈
      (w.write obj ts).2 ∧
    (w.write obj ts).1.cur_bin = some (ratFloorDiv ts w.rotate_secs * w.rotate_secs) ∧
    (∀ bp : ℤ, w.cur_bin = some bp →
      bp ≠ ratFloorDiv ts w.rotate_secs * w.rotate_secs →
      (w.write obj ts).2 =
        [FileOp.flushClose (w.path_for bp),
         FileOp.openApp (w.path_for (ratFloorDiv ts w.rotate_secs * w.rotate_secs)),
         FileOp.append (w.path_for (ratFloorDiv ts w.rotate_secs * w.rotate_secs)) obj]) ∧
    ((RotatingWriter.init "/data" 60 none).write "a" 0).2 =
      [FileOp.openApp ((RotatingWriter.init "/data" 60 none).path_for 0),
       FileOp.append ((RotatingWriter.init "/data" 60 none).path_for 0) "a"] ∧
    (((RotatingWriter.init "/data" 60 none).write "a" 0).1.write "b" 30).2 =
      [FileOp.append ((RotatingWriter.init "/data" 60 none).path_for 0) "b"] ∧
    ((((RotatingWriter.init "/data" 60 none).write "a" 0).1.write "b" 30).1.write "c" 59).2 =
      [FileOp.append ((RotatingWriter.init "/data" 60 none).path_for 0) "c"] ∧
    (((((RotatingWriter.init "/data" 60 none).write "a" 0).1.write "b" 30).1.write
        "c" 59).1.write "d" 61).2 =
      [FileOp.flushClose ((RotatingWriter.init "/data" 60 none).path_for 0),
       FileOp.openApp ((RotatingWriter.init "/data" 60 none).path_for 60),
       FileOp.append ((RotatingWriter.init "/data" 60 none).path_for 60) "d"] ∧
    (RotatingWriter.init "/data" 60 none).path_for 0 ≠
      (RotatingWriter.init "/data" 60 none).path_for 60 := by
  refine ⟨rfl, ?_, ?_, ?_, ?_, by decide, by decide, by decide, by decide, by decide⟩
  · intro hpos
    rw [ratFloorDiv_eq_floor ts w.rotate_secs hpos]
  · simp only [RotatingWriter.write]
    split_ifs with h
    · simp
    · simp
  · simp only [RotatingWriter.write]
    split_ifs with h
    · exact h
    · rfl
  · intro bp hprev hne
    simp only [RotatingWriter.write, hprev]
    rw [if_neg (by simpa using hne)]
    rfl

/-- Witness for `rotating_writer_spec`: a writer built with period 90,
after one write at t = 0, rotated by a write at t = 100: the previous
file is flush-closed before the new bucket's file is opened. -/
theorem rotating_writer_spec_witness :
    (let wc := ((RotatingWriter.init "x" 90 none).write "p" 0).1
     (wc.write "q" 100).2 =
       [FileOp.flushClose (wc.path_for 0),
        FileOp.openApp (wc.path_for (ratFloorDiv 100 wc.rotate_secs * wc.rotate_secs)),
        FileOp.append (wc.path_for (ratFloorDiv 100 wc.rotate_secs * wc.rotate_secs)) "q"]) ∧
    (let wc := ((RotatingWriter.init "x" 90 none).write "p" 0).1
     ratFloorDiv 100 wc.rotate_secs * wc.rotate_secs =
       ⌊(100:ℚ) / (wc.rotate_secs : ℚ)⌋ * wc.rotate_secs) :=
  ⟨(rotating_writer_spec "x" 90 none ((RotatingWriter.init "x" 90 none).write "p" 0).1
      "q" 100).2.2.2.2.1 0 (by decide) (by decide),
   (rotating_writer_spec "x" 90 none ((RotatingWriter.init "x" 90 none).write "p" 0).1
      "q" 100).2.1 (by decide)⟩

/-- Each byte contributes exactly two hex characters. -/
theorem toHexChars_length : ∀ l : List ℕ, (toHexChars l).length = 2 * l.length := by
  intro l
  induction l with
  | nil => rfl
  | cons b bs ih =>
    simp only [toHexChars, List.length_cons, ih]
    omega

/-- The BLAKE2b compression function returns an eight-word state. -/
theorem blakeCompress_length (h m : List ℕ) (t : ℕ) (fl : Bool) :
    (blakeCompress h m t fl).length = 8 := by
  simp [blakeCompress]

/-- Each hashing-loop step returns an eight-word state. -/
theorem blakeStep_length (data : List ℕ) (blocks : List (List ℕ))
    (h : List ℕ) (i : ℕ) : (blakeStep data blocks h i).length = 8 := by
  unfold blakeStep
  split_ifs <;> exact blakeCompress_length ..

/-- A fold whose step always returns eight words ends with eight words. -/
theorem foldl_length_eight (f : List ℕ → ℕ → List ℕ)
    (hf : ∀ acc i, (f acc i).length = 8) :
    ∀ (l : List ℕ) (acc : List ℕ), acc.length = 8 → (l.foldl f acc).length = 8 := by
  intro l
  induction l with
  | nil => intro acc h; exact h
  | cons x xs ih => intro acc h; exact ih (f acc x) (hf acc x)

/-- Little-endian expansion of an eight-word state yields 64 bytes. -/
theorem flatten_le8_length : ∀ h : List ℕ, ((h.map le8).flatten).length = 8 * h.length := by
  intro h
  induction h with
  | nil => rfl
  | cons w ws ih =>
    simp only [List.map_cons, List.flatten_cons, List.length_append, ih, le8,
      List.length_cons, List.length_nil]
    omega

/-- The six-byte BLAKE2b digest has exactly six bytes for every input. -/
theorem blake2b_length (data : List ℕ) : (blake2b data 6).length = 6 := by
  unfold blake2b
  rw [List.length_take, flatten_le8_length,
    foldl_length_eight _ (fun acc i => blakeStep_length ..) _ _ (by decide)]
  decide

/-- C8: ip_hash is a pure function of (ip, salt), and for every input
the output is the fixed tag "iphash:" followed by a 12-hex-character
digest, 19 characters in total, independent of the IP string length. -/
theorem ip_hash_spec (ip salt : String) :
    ip_hash ip salt = ip_hash ip salt ∧
    (∃ digest : String, ip_hash ip salt = "iphash:" ++ digest ∧ digest.length = 12) ∧
    (ip_hash ip salt).length = 19 := by
  have h12 : (hexString (blake2b (strBytes (ip ++ "|" ++ salt)) 6)).length = 12 := by
    show (toHexChars _).length = 12
    rw [toHexChars_length, blake2b_length]
  refine ⟨rfl, ⟨hexString (blake2b (strBytes (ip ++ "|" ++ salt)) 6), rfl, h12⟩, ?_⟩
  show (("iphash:" : String) ++ _).length = 19
  rw [String.length_append, h12]
  decide

/-- C10: a parsed event whose method is missing or not in the
heavy-method set leaves the agent state untouched and publishes
nothing. -/
theorem step_skips_non_heavy (cfg : AgentCfg) (snap : WindowStats → Snapshot)
    (st : AgentState) (ev : Event) (now : ℚ)
    (h : heavyMethod cfg ev.method = false) :
    step cfg snap st ev now = (st, []) := by
  cases hm : ev.method with
  | none => simp [step, hm]
  | some m =>
    rw [hm] at h
    simp only [heavyMethod, decide_eq_false_iff_not] at h
    simp [step, hm, h]

/-- Witness for `step_skips_non_heavy`: a getBalance event against the
default heavy-method set is skipped. -/
theorem step_skips_non_heavy_witness :
    heavyMethod ⟨["getProgramAccounts", "getLogs"], 250, 3, 3, 250, mkRat 1 20⟩
      (some "getBalance") = false ∧
    step ⟨["getProgramAccounts", "getLogs"], 250, 3, 3, 250, mkRat 1 20⟩
      (fun _ => ⟨0, 0, 0, 0⟩) ⟨[], 0⟩ ⟨some "getBalance", 10, 200⟩ 1 = (⟨[], 0⟩, []) :=
  ⟨by decide,
   step_skips_non_heavy ⟨["getProgramAccounts", "getLogs"], 250, 3, 3, 250, mkRat 1 20⟩
     (fun _ => ⟨0, 0, 0, 0⟩) ⟨[], 0⟩ ⟨some "getBalance", 10, 200⟩ 1 (by decide)⟩

end SentinelKarma
